import Mathlib

/-!
Verification of the pose-to-collider / physics-loop core of the beachboom
repository against its specification.

The development shallowly embeds the three source units:
* the keypoint mapper (calculateBodyBoundingBoxes / createBox and the frame
  driver detectPose / drawResults of the main module),
* the SoccerScene class of src/scene.ts (spawnBall, cleanupBalls,
  updateColliderBoxes, render).

JS numbers are modelled as rationals (exact arithmetic).  The code compares
Math.sqrt(x^2+y^2+z^2) > 10; for a nonnegative radicand this holds exactly
when the squared distance exceeds 10^2, so the embedding compares squared
distances and stays inside the rationals.
-/

/-- A 3D vector with rational coordinates (three.js Vector3 / Rapier Vector3). -/
structure Vec3 where
  x : ℚ
  y : ℚ
  z : ℚ
deriving DecidableEq, Repr

/-- Squared Euclidean distance from the world origin,
the radicand of the distanceFromOrigin computation in cleanupBalls. -/
def distSq (v : Vec3) : ℚ := v.x ^ 2 + v.y ^ 2 + v.z ^ 2

/-- One pose-estimation landmark: a 2D point in normalized image space.
The visibility scalar is never read by the mapper and is omitted. -/
structure Keypoint where
  x : ℚ
  y : ℚ
deriving DecidableEq, Repr

/-- The BoundingBox record of the main module: an axis-aligned rectangle in
centered NDC space plus a display color tag. -/
structure BoundingBox where
  minX : ℚ
  maxX : ℚ
  minY : ℚ
  maxY : ℚ
  color : String
deriving DecidableEq, Repr

/-- Math.min over a list, as used on the spread arrays in createBox.
JS returns +Infinity on an empty argument list, which has no rational
counterpart; the empty case yields 0 and is unreachable in every theorem
below (each group handed to createBox is nonempty whenever the mapper
succeeds, and a failing mapper run discards the head box). -/
def listMin : List ℚ → ℚ
  | [] => 0
  | x :: xs => xs.foldl min x

/-- Math.max over a list (see the listMin comment for the empty case). -/
def listMax : List ℚ → ℚ
  | [] => 0
  | x :: xs => xs.foldl max x

/-- The 5% padding constant of calculateBodyBoundingBoxes. -/
def padding : ℚ := 5 / 100

/-- xs of createBox: each point's x mapped to centered NDC via x*2-1. -/
def xsOf (points : List Keypoint) : List ℚ :=
  points.map (fun p => p.x * 2 - 1)

/-- ys of createBox: each point's y mapped to centered NDC via -(y*2-1),
flipping because image-space y grows downward. -/
def ysOf (points : List Keypoint) : List ℚ :=
  points.map (fun p => -(p.y * 2 - 1))

/-- createBox of the main module: convert the group to centered NDC, take
per-axis min/max, then pad each side by 5% of the raw width/height. -/
def createBox (points : List Keypoint) (color : String) : BoundingBox :=
  let xs := xsOf points
  let ys := ysOf points
  let minX := listMin xs
  let maxX := listMax xs
  let minY := listMin ys
  let maxY := listMax ys
  let width := maxX - minX
  let height := maxY - minY
  { minX := minX - width * padding
    maxX := maxX + width * padding
    minY := minY - height * padding
    maxY := maxY + height * padding
    color := color }

/-- Gather pose[i] for each index of a fixed group, as the array literals
[pose[15], pose[17], ...] do.  Reading a property of a missing element
throws a TypeError in JS; the embedding returns the exception in Except. -/
def getKPs (pose : List Keypoint) : List Nat → Except String (List Keypoint)
  | [] => .ok []
  | i :: is =>
      match pose[i]? with
      | none => .error "TypeError: cannot read properties of undefined"
      | some p =>
          match getKPs pose is with
          | .error e => .error e
          | .ok ps => .ok (p :: ps)

/-- createBox applied to fixed landmark indices of the first pose. -/
def createBoxAt (pose : List Keypoint) (idxs : List Nat) (color : String) :
    Except String BoundingBox :=
  match getKPs pose idxs with
  | .error e => .error e
  | .ok pts => .ok (createBox pts color)

/-- The six per-body-part boxes returned by calculateBodyBoundingBoxes. -/
structure BodyBoundingBoxes where
  head : BoundingBox
  leftHand : BoundingBox
  rightHand : BoundingBox
  leftLeg : BoundingBox
  rightLeg : BoundingBox
  torso : BoundingBox
deriving DecidableEq, Repr

/-- calculateBodyBoundingBoxes of the main module.  A missing or empty
detection list yields null (Option.none).  Otherwise the first pose is
indexed at the fixed anatomical positions; head uses pose.slice(0, 11)
(which never throws), the remaining groups use direct indexing, which
throws on a pose shorter than 33 landmarks (captured by Except.error).
Field evaluation order follows the JS object literal: head, leftHand,
rightHand, leftLeg, rightLeg, torso. -/
def calculateBodyBoundingBoxes (poseLandmarks : Option (List (List Keypoint))) :
    Except String (Option BodyBoundingBoxes) :=
  match poseLandmarks with
  | none => .ok none
  | some [] => .ok none
  | some (pose :: _) =>
      let headBox := createBox (pose.take 11) "yellow"
      match createBoxAt pose [15, 17, 19, 21] "blue" with
      | .error e => .error e
      | .ok leftHandBox =>
        match createBoxAt pose [16, 18, 20, 22] "green" with
        | .error e => .error e
        | .ok rightHandBox =>
          match createBoxAt pose [23, 25, 27, 29, 31] "purple" with
          | .error e => .error e
          | .ok leftLegBox =>
            match createBoxAt pose [24, 26, 28, 30, 32] "orange" with
            | .error e => .error e
            | .ok rightLegBox =>
              match createBoxAt pose [11, 12, 23, 24] "red" with
              | .error e => .error e
              | .ok torsoBox =>
                .ok (some { head := headBox, leftHand := leftHandBox,
                            rightHand := rightHandBox, leftLeg := leftLegBox,
                            rightLeg := rightLegBox, torso := torsoBox })

/-- One spawned projectile: the sequential spawn index stands for the
paired mesh/rigid-body object identity, pos is its recorded (mesh)
position.  The mesh and body positions agree at every point where
cleanupBalls can run: spawnBall sets both to the spawn point, and render
copies the body translation into the mesh right after each step. -/
structure Ball where
  id : Nat
  pos : Vec3
deriving DecidableEq, Repr

/-- The ball-related state of SoccerScene: the balls array plus an
allocation counter giving each spawned ball its insertion index. -/
structure SceneState where
  nextId : Nat
  balls : List Ball
deriving Repr

/-- The fixed spawn position of spawnBall (x = 0, y = 2, z = 4). -/
def spawnPos : Vec3 := ⟨0, 2, 4⟩

/-- maxBalls of cleanupBalls. -/
def maxBalls : Nat := 10

/-- removalDistance of cleanupBalls. -/
def removalDistance : ℚ := 10

/-- The removal predicate of cleanupBalls:
Math.sqrt(x^2+y^2+z^2) > removalDistance, phrased on squares. -/
def farB (v : Vec3) : Bool := decide (removalDistance ^ 2 < distSq v)

/-- cleanupBalls of SoccerScene: first drop every ball beyond the removal
distance (the filter), then, while more than maxBalls remain, shift the
oldest from the front (the while loop, i.e. dropping
length - maxBalls from the front). -/
def cleanupBalls (s : SceneState) : SceneState :=
  let kept := s.balls.filter (fun b => !(farB b.pos))
  { s with balls := kept.drop (kept.length - maxBalls) }

/-- spawnBall of SoccerScene: push a fresh ball at the fixed spawn
position onto the balls array, then run cleanupBalls.  This is the only
call site of cleanupBalls in the source. -/
def spawnBall (s : SceneState) : SceneState :=
  cleanupBalls { nextId := s.nextId + 1
                 balls := s.balls ++ [{ id := s.nextId, pos := spawnPos }] }

/-- The two externally triggered transitions of the ball state: the 5 s
spawn timer tick (spawnBall) and one render frame.  render steps the
Rapier world once and copies each body's new translation into its mesh;
the physics backend is external, so the post-step positions are an
arbitrary oracle f from ball identity to position.  render performs no
cleanup. -/
inductive Event where
  | spawnTick
  | renderFrame (f : Nat → Vec3)

/-- Apply one event to the scene state. -/
def execEvent (s : SceneState) : Event → SceneState
  | .spawnTick => spawnBall s
  | .renderFrame f => { s with balls := s.balls.map (fun b => { b with pos := f b.id }) }

/-- Run a whole event trace. -/
def execEvents (s : SceneState) (evs : List Event) : SceneState :=
  evs.foldl execEvent s

/-- The scene state right after the SoccerScene constructor: no balls. -/
def initState : SceneState := { nextId := 0, balls := [] }

/-- Recognize spawn ticks. -/
def isSpawn : Event → Bool
  | .spawnTick => true
  | .renderFrame _ => false

/-- Number of spawn ticks in a trace. -/
def spawnCount (evs : List Event) : Nat := evs.countP isSpawn

/-- Every live ball is within the removal distance of the origin. -/
def ballsClose (s : SceneState) : Bool :=
  s.balls.all (fun b => !(farB b.pos))

/-- No projectile ever exceeds the removal distance during the run:
ballsClose holds at every intermediate state of the trace. -/
def runClose (s : SceneState) : List Event → Bool
  | [] => ballsClose s
  | e :: evs => ballsClose s && runClose (execEvent s e) evs

/-- A 12-spawn-tick trace (concrete witness input). -/
def twelveSpawns : List Event :=
  [.spawnTick, .spawnTick, .spawnTick, .spawnTick, .spawnTick, .spawnTick,
   .spawnTick, .spawnTick, .spawnTick, .spawnTick, .spawnTick, .spawnTick]

/-- A physics oracle that has carried every body beyond the removal
distance by the next step (e.g. free fall well below the ground plane). -/
def farField : Nat → Vec3 := fun _ => ⟨0, 20, 0⟩

/-- Display-frame scheduling of the two requestAnimationFrame loops.
detectPose re-arms itself every frame; each SoccerScene.render call
performs exactly one rapierWorld.step() and re-arms one further render
callback for the next frame; drawResults ends with one render call on
every frame whose detection succeeded.  Given the number of pending
self-scheduled render callbacks and the per-frame detection outcomes
(true = non-empty landmark list with a complete pose), this returns the
number of step() calls executed in each successive display frame. -/
def stepsInFrames (pending : Nat) : List Bool → List Nat
  | [] => []
  | d :: rest =>
      (pending + if d then 1 else 0) :: stepsInFrames (pending + if d then 1 else 0) rest

/-- Number of updateColliderBoxes calls a frame performs: one when the
frame's detection succeeded (drawResults reaches updateColliderBoxes),
none otherwise (detectPose skips drawResults entirely). -/
def boxUpdatesInFrame (detected : Bool) : Nat := if detected then 1 else 0

/-- A three.js mesh as the collider-box proxies use it: identity (modelled
by an allocation index), position and non-uniform scale. -/
structure Mesh where
  id : Nat
  position : Vec3
  scale : Vec3
deriving DecidableEq, Repr

/-- The proxy-related state of SoccerScene: the colliderBoxes map (a JS
object keyed by body-part name, modelled as an association list), the
scene children added for those proxies (by mesh identity), and the mesh
allocation counter. -/
structure BoxScene where
  colliderBoxes : List (String × Mesh)
  sceneChildren : List Nat
  nextMeshId : Nat
deriving DecidableEq, Repr

/-- JS object property lookup on the colliderBoxes map. -/
def assocLookup (part : String) : List (String × Mesh) → Option Mesh
  | [] => none
  | e :: rest => if e.1 = part then some e.2 else assocLookup part rest

/-- In-place mutation of the mesh stored under a key
(colliderBoxes[part].scale.set / position.set). -/
def assocModify (part : String) (f : Mesh → Mesh) (l : List (String × Mesh)) :
    List (String × Mesh) :=
  l.map (fun e => if e.1 = part then (e.1, f e.2) else e)

/-- The transform update applied on every entry of updateColliderBoxes:
scale.set(width*3, height*3, 0.2) and
position.set(centerX*3, centerY*3, 0), identity untouched. -/
def setMeshTransform (box : BoundingBox) (m : Mesh) : Mesh :=
  let width := box.maxX - box.minX
  let height := box.maxY - box.minY
  let centerX := (box.maxX + box.minX) / 2
  let centerY := (box.maxY + box.minY) / 2
  { m with scale := ⟨width * 3, height * 3, 1 / 5⟩
           position := ⟨centerX * 3, centerY * 3, 0⟩ }

/-- A freshly constructed proxy mesh (BoxGeometry(1, 1, 0.2) with the
three.js default transform: position 0, scale 1). -/
def newMesh (meshId : Nat) : Mesh :=
  { id := meshId, position := ⟨0, 0, 0⟩, scale := ⟨1, 1, 1⟩ }

/-- One iteration of the Object.entries(bodyBoxes).forEach body in
updateColliderBoxes: create and insert a proxy if none exists for the
part, then always overwrite its scale and position from the box. -/
def stepBox (s : BoxScene) (entry : String × BoundingBox) : BoxScene :=
  let s1 :=
    match assocLookup entry.1 s.colliderBoxes with
    | some _ => s
    | none =>
        { colliderBoxes := s.colliderBoxes ++ [(entry.1, newMesh s.nextMeshId)]
          sceneChildren := s.sceneChildren ++ [s.nextMeshId]
          nextMeshId := s.nextMeshId + 1 }
  { s1 with colliderBoxes := assocModify entry.1 (setMeshTransform entry.2) s1.colliderBoxes }

/-- updateColliderBoxes of SoccerScene, processing the entries in order. -/
def updateColliderBoxes (s : BoxScene) (bodyBoxes : List (String × BoundingBox)) : BoxScene :=
  bodyBoxes.foldl stepBox s

/-- The proxy state right after the SoccerScene constructor. -/
def initBoxScene : BoxScene :=
  { colliderBoxes := [], sceneChildren := [], nextMeshId := 0 }

/-- Well-formedness of the proxy state: every stored mesh was allocated
below the current allocation counter.  Holds for initBoxScene and is
preserved by updateColliderBoxes. -/
def WFBoxScene (s : BoxScene) : Prop :=
  ∀ e ∈ s.colliderBoxes, e.2.id < s.nextMeshId

lemma foldl_min_le_init (ys : List ℚ) : ∀ z : ℚ, ys.foldl min z ≤ z := by
  induction ys with
  | nil => intro z; simp
  | cons y ys ih =>
      intro z
      calc (y :: ys).foldl min z = ys.foldl min (min z y) := by simp
        _ ≤ min z y := ih (min z y)
        _ ≤ z := min_le_left _ _

lemma foldl_min_le (xs : List ℚ) : ∀ (x a : ℚ), a ∈ x :: xs → xs.foldl min x ≤ a := by
  induction xs with
  | nil =>
      intro x a ha
      simp at ha
      simp [ha]
  | cons y ys ih =>
      intro x a ha
      have hstep : (y :: ys).foldl min x = ys.foldl min (min x y) := by simp
      rcases List.mem_cons.mp ha with h | ha2
      · rw [hstep, h]
        exact le_trans (foldl_min_le_init ys (min x y)) (min_le_left _ _)
      · rcases List.mem_cons.mp ha2 with h | ha3
        · rw [hstep, h]
          exact le_trans (foldl_min_le_init ys (min x y)) (min_le_right _ _)
        · rw [hstep]
          exact ih (min x y) a (List.mem_cons_of_mem _ ha3)

lemma foldl_min_mem (xs : List ℚ) : ∀ x : ℚ, xs.foldl min x ∈ x :: xs := by
  induction xs with
  | nil => intro x; simp
  | cons y ys ih =>
      intro x
      have hstep : (y :: ys).foldl min x = ys.foldl min (min x y) := by simp
      rw [hstep]
      have hmem := ih (min x y)
      rcases List.mem_cons.mp hmem with h | h
      · rcases min_cases x y with ⟨heq, _⟩ | ⟨heq, _⟩
        · rw [h, heq]; exact List.mem_cons_self _ _
        · rw [h, heq]; exact List.mem_cons_of_mem _ (List.mem_cons_self _ _)
      · exact List.mem_cons_of_mem _ (List.mem_cons_of_mem _ h)

lemma foldl_max_init_le (ys : List ℚ) : ∀ z : ℚ, z ≤ ys.foldl max z := by
  induction ys with
  | nil => intro z; simp
  | cons y ys ih =>
      intro z
      calc z ≤ max z y := le_max_left _ _
        _ ≤ ys.foldl max (max z y) := ih (max z y)
        _ = (y :: ys).foldl max z := by simp

lemma le_foldl_max (xs : List ℚ) : ∀ (x a : ℚ), a ∈ x :: xs → a ≤ xs.foldl max x := by
  induction xs with
  | nil =>
      intro x a ha
      simp at ha
      simp [ha]
  | cons y ys ih =>
      intro x a ha
      have hstep : (y :: ys).foldl max x = ys.foldl max (max x y) := by simp
      rcases List.mem_cons.mp ha with h | ha2
      · rw [hstep, h]
        exact le_trans (le_max_left _ _) (foldl_max_init_le ys (max x y))
      · rcases List.mem_cons.mp ha2 with h | ha3
        · rw [hstep, h]
          exact le_trans (le_max_right _ _) (foldl_max_init_le ys (max x y))
        · rw [hstep]
          exact ih (max x y) a (List.mem_cons_of_mem _ ha3)

lemma foldl_max_mem (xs : List ℚ) : ∀ x : ℚ, xs.foldl max x ∈ x :: xs := by
  induction xs with
  | nil => intro x; simp
  | cons y ys ih =>
      intro x
      have hstep : (y :: ys).foldl max x = ys.foldl max (max x y) := by simp
      rw [hstep]
      have hmem := ih (max x y)
      rcases List.mem_cons.mp hmem with h | h
      · rcases max_cases x y with ⟨heq, _⟩ | ⟨heq, _⟩
        · rw [h, heq]; exact List.mem_cons_self _ _
        · rw [h, heq]; exact List.mem_cons_of_mem _ (List.mem_cons_self _ _)
      · exact List.mem_cons_of_mem _ (List.mem_cons_of_mem _ h)

lemma listMin_le (x : ℚ) (xs : List ℚ) (a : ℚ) (ha : a ∈ x :: xs) :
    listMin (x :: xs) ≤ a := foldl_min_le xs x a ha

lemma listMin_mem (x : ℚ) (xs : List ℚ) : listMin (x :: xs) ∈ x :: xs :=
  foldl_min_mem xs x

lemma le_listMax (x : ℚ) (xs : List ℚ) (a : ℚ) (ha : a ∈ x :: xs) :
    a ≤ listMax (x :: xs) := le_foldl_max xs x a ha

lemma listMax_mem (x : ℚ) (xs : List ℚ) : listMax (x :: xs) ∈ x :: xs :=
  foldl_max_mem xs x

/-- Claim C8: a missing or empty detection list makes the mapper return
null (no result) as a value, not an exception: both cases evaluate to
Except.ok Option.none. -/
theorem mapper_null_on_empty :
    calculateBodyBoundingBoxes none = .ok none ∧
    calculateBodyBoundingBoxes (some []) = .ok none :=
  ⟨rfl, rfl⟩

/-- Claim C6: padding law.  For every keypoint group, the padded box
returned by createBox has width exactly 11/10 of the raw (unpadded) width
listMax xs - listMin xs, and height exactly 11/10 of the raw height,
each axis expanded independently by 5% of its own extent per side. -/
theorem createBox_padding_law (points : List Keypoint) (color : String) :
    (createBox points color).maxX - (createBox points color).minX =
      11 / 10 * (listMax (xsOf points) - listMin (xsOf points)) ∧
    (createBox points color).maxY - (createBox points color).minY =
      11 / 10 * (listMax (ysOf points) - listMin (ysOf points)) := by
  constructor <;> · simp only [createBox, padding]; ring

/-- Claim C7: createBox converts each keypoint (x, y) to centered NDC as
(x*2-1, -(y*2-1)); the pre-padding box bounds are the per-axis minimum and
maximum over the converted points of the group (every converted point lies
within them and each bound is attained), and the returned box is those raw
bounds with the padding applied afterwards. -/
theorem createBox_ndc_minmax (p : Keypoint) (ps : List Keypoint) (color : String) :
    (∀ q ∈ p :: ps,
        listMin (xsOf (p :: ps)) ≤ q.x * 2 - 1 ∧
        q.x * 2 - 1 ≤ listMax (xsOf (p :: ps)) ∧
        listMin (ysOf (p :: ps)) ≤ -(q.y * 2 - 1) ∧
        -(q.y * 2 - 1) ≤ listMax (ysOf (p :: ps))) ∧
    (∃ q ∈ p :: ps, q.x * 2 - 1 = listMin (xsOf (p :: ps))) ∧
    (∃ q ∈ p :: ps, q.x * 2 - 1 = listMax (xsOf (p :: ps))) ∧
    (∃ q ∈ p :: ps, -(q.y * 2 - 1) = listMin (ysOf (p :: ps))) ∧
    (∃ q ∈ p :: ps, -(q.y * 2 - 1) = listMax (ysOf (p :: ps))) ∧
    createBox (p :: ps) color =
      { minX := listMin (xsOf (p :: ps)) -
          (listMax (xsOf (p :: ps)) - listMin (xsOf (p :: ps))) * padding
        maxX := listMax (xsOf (p :: ps)) +
          (listMax (xsOf (p :: ps)) - listMin (xsOf (p :: ps))) * padding
        minY := listMin (ysOf (p :: ps)) -
          (listMax (ysOf (p :: ps)) - listMin (ysOf (p :: ps))) * padding
        maxY := listMax (ysOf (p :: ps)) +
          (listMax (ysOf (p :: ps)) - listMin (ysOf (p :: ps))) * padding
        color := color } := by
  have hx : xsOf (p :: ps) = (p.x * 2 - 1) :: xsOf ps := by simp [xsOf]
  have hy : ysOf (p :: ps) = (-(p.y * 2 - 1)) :: ysOf ps := by simp [ysOf]
  refine ⟨?_, ?_, ?_, ?_, ?_, ?_⟩
  · intro q hq
    have hqx : q.x * 2 - 1 ∈ (p.x * 2 - 1) :: xsOf ps := by
      rw [← hx]; exact List.mem_map_of_mem (fun r => r.x * 2 - 1) hq
    have hqy : -(q.y * 2 - 1) ∈ (-(p.y * 2 - 1)) :: ysOf ps := by
      rw [← hy]; exact List.mem_map_of_mem (fun r => -(r.y * 2 - 1)) hq
    refine ⟨?_, ?_, ?_, ?_⟩
    · rw [hx]; exact listMin_le _ _ _ hqx
    · rw [hx]; exact le_listMax _ _ _ hqx
    · rw [hy]; exact listMin_le _ _ _ hqy
    · rw [hy]; exact le_listMax _ _ _ hqy
  · have hmem : listMin (xsOf (p :: ps)) ∈ xsOf (p :: ps) := by
      rw [hx]; exact listMin_mem _ _
    obtain ⟨q, hq, hq2⟩ := List.mem_map.mp hmem
    exact ⟨q, hq, hq2⟩
  · have hmem : listMax (xsOf (p :: ps)) ∈ xsOf (p :: ps) := by
      rw [hx]; exact listMax_mem _ _
    obtain ⟨q, hq, hq2⟩ := List.mem_map.mp hmem
    exact ⟨q, hq, hq2⟩
  · have hmem : listMin (ysOf (p :: ps)) ∈ ysOf (p :: ps) := by
      rw [hy]; exact listMin_mem _ _
    obtain ⟨q, hq, hq2⟩ := List.mem_map.mp hmem
    exact ⟨q, hq, hq2⟩
  · have hmem : listMax (ysOf (p :: ps)) ∈ ysOf (p :: ps) := by
      rw [hy]; exact listMax_mem _ _
    obtain ⟨q, hq, hq2⟩ := List.mem_map.mp hmem
    exact ⟨q, hq, hq2⟩
  · rfl

lemma getKPs_error_of_missing (pose : List Keypoint) :
    ∀ idxs : List Nat, (∃ i ∈ idxs, pose.length ≤ i) →
      ∃ e, getKPs pose idxs = .error e := by
  intro idxs
  induction idxs with
  | nil => rintro ⟨i, hi, _⟩; exact absurd hi (List.not_mem_nil i)
  | cons j js ih =>
      rintro ⟨i, hi, hlen⟩
      rcases List.mem_cons.mp hi with h | h
      · have hj : pose[j]? = none := by
          apply List.getElem?_eq_none
          omega
        exact ⟨"TypeError: cannot read properties of undefined", by simp [getKPs, hj]⟩
      · cases hj : pose[j]? with
        | none =>
            exact ⟨"TypeError: cannot read properties of undefined", by simp [getKPs, hj]⟩
        | some q =>
            obtain ⟨e, he⟩ := ih ⟨i, h, hlen⟩
            exact ⟨e, by simp [getKPs, hj, he]⟩

/-- Claim C10: the mapper indexes the first pose at fixed positions up to
index 32 with no bounds guard; on any non-empty detection list whose first
pose has fewer than 33 keypoints it is not total: it throws (an undefined
property access, modelled as Except.error) instead of returning null or a
valid six-box result. -/
theorem mapper_not_total_on_short_pose (pose : List Keypoint)
    (rest : List (List Keypoint)) (hshort : pose.length < 33) :
    ∃ e, calculateBodyBoundingBoxes (some (pose :: rest)) = .error e := by
  have h32 : ∃ e, getKPs pose [24, 26, 28, 30, 32] = .error e := by
    apply getKPs_error_of_missing
    exact ⟨32, by simp, by omega⟩
  obtain ⟨e32, he32⟩ := h32
  have hRL : createBoxAt pose [24, 26, 28, 30, 32] "orange" = .error e32 := by
    simp [createBoxAt, he32]
  cases hLH : createBoxAt pose [15, 17, 19, 21] "blue" with
  | error e => exact ⟨e, by simp [calculateBodyBoundingBoxes, hLH]⟩
  | ok b1 =>
      cases hRH : createBoxAt pose [16, 18, 20, 22] "green" with
      | error e => exact ⟨e, by simp [calculateBodyBoundingBoxes, hLH, hRH]⟩
      | ok b2 =>
          cases hLL : createBoxAt pose [23, 25, 27, 29, 31] "purple" with
          | error e => exact ⟨e, by simp [calculateBodyBoundingBoxes, hLH, hRH, hLL]⟩
          | ok b3 =>
              exact ⟨e32, by simp [calculateBodyBoundingBoxes, hLH, hRH, hLL, hRL]⟩

/-- Witness for C10 at a concrete input: a detection list containing one
pose with zero keypoints. -/
theorem mapper_not_total_on_short_pose_witness :
    ([] : List Keypoint).length < 33 ∧
    ∃ e, calculateBodyBoundingBoxes (some [[]]) = .error e :=
  ⟨by decide, mapper_not_total_on_short_pose [] [] (by decide)⟩

lemma farB_spawnPos : farB spawnPos = false := by
  have h : ¬ (removalDistance ^ 2 < distSq spawnPos) := by
    norm_num [removalDistance, distSq, spawnPos]
  simp [farB, h]

lemma spawnBall_nextId (s : SceneState) : (spawnBall s).nextId = s.nextId + 1 := rfl

/-- The key list identity behind FIFO eviction under the cap: appending the
next spawn index to the surviving window of the first k indices and then
evicting down to the cap from the front yields the surviving window of the
first k+1 indices. -/
lemma evict_window_step (k : Nat) :
    ((List.range k).drop (k - maxBalls) ++ [k]).drop
      (k - (k - maxBalls) + 1 - maxBalls) =
      (List.range (k + 1)).drop (k + 1 - maxBalls) := by
  simp only [maxBalls]
  rw [List.range_succ, List.drop_append_eq_append_drop, List.drop_append_eq_append_drop,
      List.drop_drop]
  have hlen : ((List.range k).drop (k - 10)).length = k - (k - 10) := by simp
  rw [hlen, List.length_range]
  have h1 : k - 10 + (k - (k - 10) + 1 - 10) = k + 1 - 10 := by omega
  have h2 : k - (k - 10) + 1 - 10 - (k - (k - 10)) = k + 1 - 10 - k := by omega
  rw [h1, h2]

lemma spawnBall_ids (s : SceneState)
    (hclose : ballsClose s = true)
    (hids : s.balls.map Ball.id = (List.range s.nextId).drop (s.nextId - maxBalls)) :
    (spawnBall s).balls.map Ball.id =
      (List.range (s.nextId + 1)).drop (s.nextId + 1 - maxBalls) := by
  have hfilter : (s.balls ++ [({ id := s.nextId, pos := spawnPos } : Ball)]).filter
      (fun b => !(farB b.pos)) =
      s.balls ++ [({ id := s.nextId, pos := spawnPos } : Ball)] := by
    rw [List.filter_eq_self]
    intro b hb
    rcases List.mem_append.mp hb with h | h
    · exact List.all_eq_true.mp hclose b h
    · simp at h
      simp [h, farB_spawnPos]
  have hlenballs : s.balls.length = s.nextId - (s.nextId - maxBalls) := by
    have := congrArg List.length hids
    simpa using this
  have hmapone : ([({ id := s.nextId, pos := spawnPos } : Ball)]).map Ball.id = [s.nextId] := rfl
  unfold spawnBall cleanupBalls
  simp only [hfilter, List.length_append, List.length_cons, List.length_nil, hlenballs,
    Nat.zero_add]
  rw [List.map_drop, List.map_append, hids, hmapone]
  exact evict_window_step s.nextId

lemma execEvents_ids (evs : List Event) :
    ∀ s : SceneState,
      s.balls.map Ball.id = (List.range s.nextId).drop (s.nextId - maxBalls) →
      runClose s evs = true →
      (execEvents s evs).nextId = s.nextId + spawnCount evs ∧
      (execEvents s evs).balls.map Ball.id =
        (List.range (s.nextId + spawnCount evs)).drop
          (s.nextId + spawnCount evs - maxBalls) := by
  induction evs with
  | nil =>
      intro s hids _
      simp [execEvents, spawnCount, hids]
  | cons e rest ih =>
      intro s hids hclose
      have hexec : execEvents s (e :: rest) = execEvents (execEvent s e) rest := by
        simp [execEvents]
      rw [show runClose s (e :: rest) = (ballsClose s && runClose (execEvent s e) rest)
        from rfl, Bool.and_eq_true] at hclose
      cases e with
      | renderFrame f =>
          have hids2 : (execEvent s (.renderFrame f)).balls.map Ball.id =
              (List.range (execEvent s (.renderFrame f)).nextId).drop
                ((execEvent s (.renderFrame f)).nextId - maxBalls) := by
            simp only [execEvent]
            rw [List.map_map]
            exact hids
          obtain ⟨h1, h2⟩ := ih (execEvent s (.renderFrame f)) hids2 hclose.2
          have hcount : spawnCount (Event.renderFrame f :: rest) = spawnCount rest := by
            simp [spawnCount, List.countP_cons, isSpawn]
          rw [hexec, hcount]
          exact ⟨h1, h2⟩
      | spawnTick =>
          have hids2 : (execEvent s .spawnTick).balls.map Ball.id =
              (List.range (execEvent s .spawnTick).nextId).drop
                ((execEvent s .spawnTick).nextId - maxBalls) := by
            simp only [execEvent, spawnBall_nextId]
            exact spawnBall_ids s hclose.1 hids
          obtain ⟨h1, h2⟩ := ih (execEvent s .spawnTick) hids2 hclose.2
          have hcount : spawnCount (Event.spawnTick :: rest) = spawnCount rest + 1 := by
            simp [spawnCount, List.countP_cons, isSpawn]
          have hnext : (execEvent s .spawnTick).nextId = s.nextId + 1 := spawnBall_nextId s
          rw [hexec, hcount]
          constructor
          · rw [h1, hnext]; omega
          · rw [h2, hnext]
            have harith : s.nextId + 1 + spawnCount rest = s.nextId + (spawnCount rest + 1) := by
              omega
            rw [harith]

/-- Claim C1: over any run of the scene containing N spawn ticks with
N above the cap maxBalls = 10, during which no projectile ever exceeds the
removal distance, after the N-th spawn the live count equals the cap and
the survivors are exactly the spawns with insertion index at least
N - maxBalls, in insertion order: the oldest N - maxBalls projectiles have
been evicted FIFO (and distance-based removal, which the hypothesis makes
vacuous, is the only removal applied before the cap eviction). -/
theorem projectile_cap_fifo (evs : List Event) (N : Nat)
    (hN : spawnCount evs = N) (hcap : maxBalls < N)
    (hclose : runClose initState evs = true) :
    (execEvents initState evs).balls.length = maxBalls ∧
    (execEvents initState evs).balls.map Ball.id =
      (List.range N).drop (N - maxBalls) := by
  obtain ⟨h1, h2⟩ := execEvents_ids evs initState (by simp [initState, maxBalls]) hclose
  rw [show initState.nextId = 0 from rfl] at h1 h2
  simp only [Nat.zero_add, hN] at h1 h2
  refine ⟨?_, h2⟩
  have hlen := congrArg List.length h2
  simp only [List.length_map, List.length_drop, List.length_range] at hlen
  simp only [maxBalls] at hcap hlen ⊢
  omega

/-- Witness for C1: twelve consecutive spawn ticks; ten balls survive and
they are the ten most recently spawned, in insertion order. -/
theorem projectile_cap_fifo_witness :
    spawnCount twelveSpawns = 12 ∧ maxBalls < 12 ∧
    runClose initState twelveSpawns = true ∧
    ((execEvents initState twelveSpawns).balls.length = maxBalls ∧
     (execEvents initState twelveSpawns).balls.map Ball.id =
       (List.range 12).drop (12 - maxBalls)) := by
  refine ⟨rfl, by decide, ?_, ?_⟩
  · simp [twelveSpawns, runClose, ballsClose, execEvent, execEvents, spawnBall,
      cleanupBalls, initState, farB_spawnPos, maxBalls]
  · exact projectile_cap_fifo twelveSpawns 12 rfl (by decide)
      (by simp [twelveSpawns, runClose, ballsClose, execEvent, execEvents, spawnBall,
        cleanupBalls, initState, farB_spawnPos, maxBalls])

/-- Claim C2 is false as stated: cleanupBalls is called only from
spawnBall, never from render, so a physics step (render frame) with no
spawn tick leaves a projectile live beyond the removal distance.  Concrete
run: one spawn tick, then one render frame whose step carries the ball to
(0, 20, 0): after that step the ball is still live at squared distance
400 > 10^2. -/
theorem step_without_cleanup_counterexample :
    ∃ b ∈ (execEvents initState [.spawnTick, .renderFrame farField]).balls,
      removalDistance ^ 2 < distSq b.pos := by
  have h : (execEvents initState [.spawnTick, .renderFrame farField]).balls =
      [{ id := 0, pos := ⟨0, 20, 0⟩ }] := by
    simp [execEvents, execEvent, spawnBall, cleanupBalls, initState, farB_spawnPos,
      maxBalls, farField]
  rw [h]
  refine ⟨{ id := 0, pos := ⟨0, 20, 0⟩ }, by simp, ?_⟩
  norm_num [removalDistance, distSq]

/-- Claim C2, amended: the cleanup policy (distance-based removal followed
by cap-based FIFO eviction) is evaluated only on spawn ticks — spawnBall is
the sole caller of cleanupBalls — not on every physics step; immediately
after any spawn tick no live projectile's recorded position exceeds the
removal distance of 10 units from the world origin, while after a render
step without a spawn a projectile may exceed it (see the counterexample). -/
theorem spawn_tick_cleanup_bound (s : SceneState) (b : Ball)
    (hb : b ∈ (spawnBall s).balls) : distSq b.pos ≤ removalDistance ^ 2 := by
  unfold spawnBall cleanupBalls at hb
  simp only at hb
  have hb2 := List.mem_of_mem_drop hb
  have hb3 := List.mem_filter.mp hb2
  have hb4 := hb3.2
  simp only [farB, Bool.not_eq_true', decide_eq_false_iff_not, not_lt] at hb4
  exact hb4

/-- Witness for the amended C2: the ball just spawned into the empty scene
is within the removal distance. -/
theorem spawn_tick_cleanup_bound_witness :
    ({ id := 0, pos := spawnPos } : Ball) ∈ (spawnBall initState).balls ∧
    distSq ({ id := 0, pos := spawnPos } : Ball).pos ≤ removalDistance ^ 2 := by
  have hmem : ({ id := 0, pos := spawnPos } : Ball) ∈ (spawnBall initState).balls := by
    simp [spawnBall, cleanupBalls, initState, farB_spawnPos, maxBalls]
  exact ⟨hmem, spawn_tick_cleanup_bound initState _ hmem⟩

/-- Claim C3 names a code bug: step() is not called exactly once per
display frame.  render re-arms itself via requestAnimationFrame on every
call (scene.ts) while drawResults also calls render once per detected
frame, so the pending render callbacks accumulate: with a pose detected in
two consecutive frames, the first frame executes one step but the second
executes two (the self-scheduled callback plus the detection-path call),
and the count keeps growing by one every detected frame thereafter. -/
theorem step_count_grows_per_frame :
    stepsInFrames 0 [true, true] = [1, 2] ∧
    stepsInFrames 0 [true, true, true] = [1, 2, 3] := ⟨rfl, rfl⟩

/-- Claim C4 is false as stated: on a zero-detection frame detectPose
skips drawResults entirely, and drawResults is the only call site of
SoccerScene.render, so a no-detection frame with no previously
self-scheduled render callback performs no physics step and no render at
all.  Concrete run: the very first frame returns zero detections; its box
updates are skipped, and it also executes zero step()/render calls. -/
theorem no_detection_first_frame_counterexample :
    boxUpdatesInFrame false = 0 ∧ stepsInFrames 0 [false] = [0] := ⟨rfl, rfl⟩

lemma stepsInFrames_pos_iff (dets : List Bool) :
    ∀ (pending n : Nat), dets.get? n = some false →
      (0 < (stepsInFrames pending dets).getD n 0 ↔
        0 < pending ∨ ∃ k, k < n ∧ dets.getD k false = true) := by
  induction dets with
  | nil => intro pending n hn; simp at hn
  | cons d rest ih =>
      intro pending n hn
      cases n with
      | zero =>
          have hd : d = false := by simpa using hn
          subst hd
          simp [stepsInFrames]
      | succ m =>
          have hm : rest.get? m = some false := by simpa using hn
          have hstep : stepsInFrames pending (d :: rest) =
              (pending + if d then 1 else 0) ::
                stepsInFrames (pending + if d then 1 else 0) rest := rfl
          rw [hstep]
          have hgd : ((pending + if d then 1 else 0) ::
              stepsInFrames (pending + if d then 1 else 0) rest).getD (m + 1) 0 =
              (stepsInFrames (pending + if d then 1 else 0) rest).getD m 0 := rfl
          rw [hgd, ih (pending + if d then 1 else 0) m hm]
          cases d with
          | true =>
              constructor
              · intro _
                exact Or.inr ⟨0, by omega, rfl⟩
              · intro _
                exact Or.inl (by simp)
          | false =>
              constructor
              · rintro (h | ⟨k, hk, hkd⟩)
                · exact Or.inl (by simpa using h)
                · exact Or.inr ⟨k + 1, by omega, by simpa using hkd⟩
              · rintro (h | ⟨k, hk, hkd⟩)
                · exact Or.inl (by simpa using h)
                · cases k with
                  | zero => simp at hkd
                  | succ j =>
                      exact Or.inr ⟨j, by omega, by simpa using hkd⟩

/-- Claim C4, amended: on every zero-detection frame the proxy/box updates
are skipped (updateColliderBoxes is not reached), and the physics world is
stepped and the scene rendered in that frame if and only if some earlier
frame of the run had a detection — the render loop keeps running once
started, but a no-detection frame before the first detection performs no
step and no render (see the counterexample). -/
theorem no_detection_frame_steps_iff_prior (dets : List Bool) (n : Nat)
    (hn : dets.get? n = some false) :
    boxUpdatesInFrame false = 0 ∧
    (0 < (stepsInFrames 0 dets).getD n 0 ↔
      ∃ k, k < n ∧ dets.getD k false = true) := by
  refine ⟨rfl, ?_⟩
  rw [stepsInFrames_pos_iff dets 0 n hn]
  simp

/-- Witness for the amended C4: detection in frame 0, nothing in frame 1;
frame 1 still steps (one pending render callback) because frame 0 saw a
detection. -/
theorem no_detection_frame_steps_iff_prior_witness :
    ([true, false].get? 1 = some false) ∧
    (boxUpdatesInFrame false = 0 ∧
     (0 < (stepsInFrames 0 [true, false]).getD 1 0 ↔
       ∃ k, k < 1 ∧ [true, false].getD k false = true)) :=
  ⟨rfl, no_detection_frame_steps_iff_prior [true, false] 1 rfl⟩

lemma assocLookup_append_some (part : String) (l l2 : List (String × Mesh)) (m : Mesh)
    (h : assocLookup part l = some m) : assocLookup part (l ++ l2) = some m := by
  induction l with
  | nil => simp [assocLookup] at h
  | cons e rest ih =>
      by_cases he : e.1 = part
      · simp [assocLookup, he] at h ⊢
        exact h
      · simp [assocLookup, he] at h ⊢
        exact ih h

lemma assocLookup_append_none (part : String) (l l2 : List (String × Mesh))
    (h : assocLookup part l = none) : assocLookup part (l ++ l2) = assocLookup part l2 := by
  induction l with
  | nil => simp
  | cons e rest ih =>
      by_cases he : e.1 = part
      · simp [assocLookup, he] at h
      · simp [assocLookup, he] at h ⊢
        exact ih h

lemma assocLookup_modify_self (part : String) (f : Mesh → Mesh) (l : List (String × Mesh)) :
    assocLookup part (assocModify part f l) = (assocLookup part l).map f := by
  induction l with
  | nil => simp [assocLookup, assocModify]
  | cons e rest ih =>
      by_cases he : e.1 = part
      · simp [assocLookup, assocModify, he]
      · simp [assocLookup, assocModify, he]
        exact ih

lemma assocLookup_modify_other (part q : String) (f : Mesh → Mesh)
    (l : List (String × Mesh)) (hq : q ≠ part) :
    assocLookup part (assocModify q f l) = assocLookup part l := by
  induction l with
  | nil => simp [assocLookup, assocModify]
  | cons e rest ih =>
      by_cases he : e.1 = q
      · simp [assocLookup, assocModify, he, hq]
        exact ih
      · by_cases hep : e.1 = part
        · simp [assocLookup, assocModify, he, hep, Ne.symm hq]
        · simp [assocLookup, assocModify, he, hep]
          exact ih

lemma assocLookup_mem (part : String) (l : List (String × Mesh)) (m : Mesh)
    (h : assocLookup part l = some m) : (part, m) ∈ l := by
  induction l with
  | nil => simp [assocLookup] at h
  | cons e rest ih =>
      by_cases he : e.1 = part
      · simp [assocLookup, he] at h
        have hpm : (part, m) = e := Prod.ext he.symm h.symm
        rw [hpm]
        exact List.mem_cons_self _ _
      · simp [assocLookup, he] at h
        exact List.mem_cons_of_mem _ (ih h)

lemma setMeshTransform_id (box : BoundingBox) (m : Mesh) :
    (setMeshTransform box m).id = m.id := rfl

lemma stepBox_lookup_other (s : BoxScene) (entry : String × BoundingBox) (part : String)
    (h : entry.1 ≠ part) :
    assocLookup part (stepBox s entry).colliderBoxes = assocLookup part s.colliderBoxes := by
  unfold stepBox
  cases hl : assocLookup entry.1 s.colliderBoxes with
  | some m => simp only [hl]; exact assocLookup_modify_other _ _ _ _ h
  | none =>
      simp only [hl]
      rw [assocLookup_modify_other _ _ _ _ h]
      cases hp : assocLookup part s.colliderBoxes with
      | some m2 => exact assocLookup_append_some _ _ _ _ hp
      | none =>
          rw [assocLookup_append_none _ _ _ hp]
          simp [assocLookup, h]

lemma stepBox_lookup_self (s : BoxScene) (part : String) (box : BoundingBox) :
    ∃ m0 : Mesh,
      assocLookup part (stepBox s (part, box)).colliderBoxes =
        some (setMeshTransform box m0) ∧
      (assocLookup part s.colliderBoxes = some m0 ∨
        (assocLookup part s.colliderBoxes = none ∧ m0 = newMesh s.nextMeshId)) := by
  unfold stepBox
  cases hl : assocLookup part s.colliderBoxes with
  | some m =>
      refine ⟨m, ?_, Or.inl rfl⟩
      simp only [hl]
      rw [assocLookup_modify_self, hl]
      rfl
  | none =>
      refine ⟨newMesh s.nextMeshId, ?_, Or.inr ⟨rfl, rfl⟩⟩
      simp only [hl]
      rw [assocLookup_modify_self, assocLookup_append_none _ _ _ hl]
      simp [assocLookup]

lemma updateColliderBoxes_lookup_not_mem (l : List (String × BoundingBox)) :
    ∀ (s : BoxScene) (part : String), part ∉ l.map Prod.fst →
      assocLookup part (updateColliderBoxes s l).colliderBoxes =
        assocLookup part s.colliderBoxes := by
  induction l with
  | nil => intro s part _; rfl
  | cons e rest ih =>
      intro s part hpart
      simp only [List.map_cons, List.mem_cons] at hpart
      push_neg at hpart
      have hstep : updateColliderBoxes s (e :: rest) =
          updateColliderBoxes (stepBox s e) rest := rfl
      rw [hstep, ih (stepBox s e) part hpart.2]
      exact stepBox_lookup_other s e part (fun h => hpart.1 h.symm)

lemma stepBox_id_preserved (s : BoxScene) (entry : String × BoundingBox) (part : String)
    (m : Mesh) (h : assocLookup part s.colliderBoxes = some m) :
    ∃ m2, assocLookup part (stepBox s entry).colliderBoxes = some m2 ∧ m2.id = m.id := by
  by_cases he : entry.1 = part
  · obtain ⟨p, b⟩ := entry
    simp only at he
    subst he
    obtain ⟨m0, hm0, hcase⟩ := stepBox_lookup_self s p b
    rcases hcase with hc | hc
    · rw [h] at hc
      injection hc with hc
      exact ⟨setMeshTransform b m0, hm0, by rw [setMeshTransform_id, hc]⟩
    · rw [hc.1] at h
      exact absurd h (by simp)
  · exact ⟨m, by rw [stepBox_lookup_other s entry part he]; exact h, rfl⟩

lemma updateColliderBoxes_id_preserved (l : List (String × BoundingBox)) :
    ∀ (s : BoxScene) (part : String) (m : Mesh),
      assocLookup part s.colliderBoxes = some m →
      ∃ m2, assocLookup part (updateColliderBoxes s l).colliderBoxes = some m2 ∧
        m2.id = m.id := by
  induction l with
  | nil => intro s part m h; exact ⟨m, h, rfl⟩
  | cons e rest ih =>
      intro s part m h
      obtain ⟨m1, hm1, hid1⟩ := stepBox_id_preserved s e part m h
      obtain ⟨m2, hm2, hid2⟩ := ih (stepBox s e) part m1 hm1
      exact ⟨m2, hm2, by rw [hid2, hid1]⟩

lemma WF_stepBox (s : BoxScene) (entry : String × BoundingBox)
    (h : WFBoxScene s) : WFBoxScene (stepBox s entry) := by
  unfold stepBox
  cases hl : assocLookup entry.1 s.colliderBoxes with
  | some m =>
      simp only [hl]
      intro e he
      obtain ⟨e0, he0, heq⟩ := List.mem_map.mp he
      by_cases hc : e0.1 = entry.1
      · simp only [hc, if_true] at heq
        rw [← heq]
        exact h e0 he0
      · simp only [hc, if_false] at heq
        rw [← heq]
        exact h e0 he0
  | none =>
      simp only [hl]
      intro e he
      obtain ⟨e0, he0, heq⟩ := List.mem_map.mp he
      rcases List.mem_append.mp he0 with h0 | h0
      · by_cases hc : e0.1 = entry.1
        · simp only [hc, if_true] at heq
          rw [← heq]
          simp only [setMeshTransform]
          exact Nat.lt_succ_of_lt (h e0 h0)
        · simp only [hc, if_false] at heq
          rw [← heq]
          exact Nat.lt_succ_of_lt (h e0 h0)
      · simp only [List.mem_singleton] at h0
        subst h0
        by_cases hc : entry.1 = entry.1
        · simp only [hc, if_true] at heq
          rw [← heq]
          simp [setMeshTransform, newMesh]
        · exact absurd rfl hc

lemma WF_updateColliderBoxes (l : List (String × BoundingBox)) :
    ∀ s : BoxScene, WFBoxScene s → WFBoxScene (updateColliderBoxes s l) := by
  induction l with
  | nil => intro s h; exact h
  | cons e rest ih =>
      intro s h
      exact ih (stepBox s e) (WF_stepBox s e h)

lemma stepBox_children (s : BoxScene) (entry : String × BoundingBox) :
    ∃ t, (stepBox s entry).sceneChildren = s.sceneChildren ++ t ∧
      (∀ i ∈ t, s.nextMeshId ≤ i) ∧ s.nextMeshId ≤ (stepBox s entry).nextMeshId := by
  unfold stepBox
  cases hl : assocLookup entry.1 s.colliderBoxes with
  | some m => exact ⟨[], by simp [hl]⟩
  | none =>
      refine ⟨[s.nextMeshId], by simp [hl], ?_, by simp [hl]⟩
      intro i hi
      simp at hi
      omega

lemma updateColliderBoxes_children (l : List (String × BoundingBox)) :
    ∀ s : BoxScene,
      ∃ t, (updateColliderBoxes s l).sceneChildren = s.sceneChildren ++ t ∧
        (∀ i ∈ t, s.nextMeshId ≤ i) ∧
        s.nextMeshId ≤ (updateColliderBoxes s l).nextMeshId := by
  induction l with
  | nil => intro s; exact ⟨[], by simp [updateColliderBoxes], by simp, le_refl _⟩
  | cons e rest ih =>
      intro s
      obtain ⟨t1, ht1, hb1, hm1⟩ := stepBox_children s e
      obtain ⟨t2, ht2, hb2, hm2⟩ := ih (stepBox s e)
      have hfold : updateColliderBoxes s (e :: rest) =
          updateColliderBoxes (stepBox s e) rest := rfl
      refine ⟨t1 ++ t2, ?_, ?_, ?_⟩
      · rw [hfold, ht2, ht1, List.append_assoc]
      · intro i hi
        rcases List.mem_append.mp hi with h | h
        · exact hb1 i h
        · exact le_trans hm1 (hb2 i h)
      · rw [hfold]
        exact le_trans hm1 hm2

/-- Claim C9: for every BodyPartBox processed by updateColliderBoxes, the
part's proxy ends the call with position (centerX*3, centerY*3, 0) — the
box's NDC midpoint under the fixed linear scale factor 3 and z held at
depth 0 — and scale (width*3, height*3, 0.2) with width = maxX - minX,
height = maxY - minY and the fixed thin depth 0.2. -/
theorem collider_box_placement (s : BoxScene) (pre post : List (String × BoundingBox))
    (part : String) (box : BoundingBox) (hpost : part ∉ post.map Prod.fst) :
    ∃ m, assocLookup part
        (updateColliderBoxes s (pre ++ (part, box) :: post)).colliderBoxes = some m ∧
      m.position = ⟨(box.maxX + box.minX) / 2 * 3, (box.maxY + box.minY) / 2 * 3, 0⟩ ∧
      m.scale = ⟨(box.maxX - box.minX) * 3, (box.maxY - box.minY) * 3, 1 / 5⟩ := by
  have hfold : updateColliderBoxes s (pre ++ (part, box) :: post) =
      updateColliderBoxes (stepBox (updateColliderBoxes s pre) (part, box)) post := by
    unfold updateColliderBoxes
    rw [List.foldl_append, List.foldl_cons]
  obtain ⟨m0, hm0, _⟩ := stepBox_lookup_self (updateColliderBoxes s pre) part box
  rw [hfold, updateColliderBoxes_lookup_not_mem post _ part hpost, hm0]
  exact ⟨setMeshTransform box m0, rfl, rfl, rfl⟩

/-- Witness for C9 at a concrete input: a single head box on the scene
right after construction. -/
theorem collider_box_placement_witness :
    ("head" ∉ ([] : List (String × BoundingBox)).map Prod.fst) ∧
    (∃ m, assocLookup "head"
        (updateColliderBoxes initBoxScene
          ([] ++ ("head", ⟨0, 1, 0, 1, "yellow"⟩) :: [])).colliderBoxes = some m ∧
      m.position = ⟨((1 : ℚ) + 0) / 2 * 3, ((1 : ℚ) + 0) / 2 * 3, 0⟩ ∧
      m.scale = ⟨((1 : ℚ) - 0) * 3, ((1 : ℚ) - 0) * 3, 1 / 5⟩) :=
  ⟨by simp, collider_box_placement initBoxScene [] [] "head" ⟨0, 1, 0, 1, "yellow"⟩ (by simp)⟩

/-- Claim C5: proxies are created at most once per body-part identifier.
For two consecutive updateColliderBoxes calls whose inputs both contain a
(unique, as JS object keys are) box for the part, the second call reuses
the identical underlying proxy (same mesh identity) created or reused by
the first, adds no duplicate scene-graph insertion for it (its occurrence
count among the scene children is unchanged), and overwrites the proxy's
position and scale from the second call's box. -/
theorem proxy_identity_stable (s : BoxScene)
    (pre1 post1 pre2 post2 : List (String × BoundingBox)) (part : String)
    (b1 b2 : BoundingBox) (hWF : WFBoxScene s)
    (hpost1 : part ∉ post1.map Prod.fst) (hpre2 : part ∉ pre2.map Prod.fst)
    (hpost2 : part ∉ post2.map Prod.fst) :
    ∃ m1 m2,
      assocLookup part
        (updateColliderBoxes s (pre1 ++ (part, b1) :: post1)).colliderBoxes = some m1 ∧
      assocLookup part
        (updateColliderBoxes (updateColliderBoxes s (pre1 ++ (part, b1) :: post1))
          (pre2 ++ (part, b2) :: post2)).colliderBoxes = some m2 ∧
      m2.id = m1.id ∧
      (updateColliderBoxes (updateColliderBoxes s (pre1 ++ (part, b1) :: post1))
          (pre2 ++ (part, b2) :: post2)).sceneChildren.count m1.id =
        (updateColliderBoxes s (pre1 ++ (part, b1) :: post1)).sceneChildren.count m1.id ∧
      m2.position = ⟨(b2.maxX + b2.minX) / 2 * 3, (b2.maxY + b2.minY) / 2 * 3, 0⟩ ∧
      m2.scale = ⟨(b2.maxX - b2.minX) * 3, (b2.maxY - b2.minY) * 3, 1 / 5⟩ := by
  have hfold1 : updateColliderBoxes s (pre1 ++ (part, b1) :: post1) =
      updateColliderBoxes (stepBox (updateColliderBoxes s pre1) (part, b1)) post1 := by
    unfold updateColliderBoxes
    rw [List.foldl_append, List.foldl_cons]
  obtain ⟨m0, hm0, _⟩ := stepBox_lookup_self (updateColliderBoxes s pre1) part b1
  have hm1 : assocLookup part
      (updateColliderBoxes s (pre1 ++ (part, b1) :: post1)).colliderBoxes =
      some (setMeshTransform b1 m0) := by
    rw [hfold1, updateColliderBoxes_lookup_not_mem post1 _ part hpost1, hm0]
  set s1 := updateColliderBoxes s (pre1 ++ (part, b1) :: post1) with hs1
  have hfold2 : updateColliderBoxes s1 (pre2 ++ (part, b2) :: post2) =
      updateColliderBoxes (stepBox (updateColliderBoxes s1 pre2) (part, b2)) post2 := by
    unfold updateColliderBoxes
    rw [List.foldl_append, List.foldl_cons]
  have hm1pre2 : assocLookup part (updateColliderBoxes s1 pre2).colliderBoxes =
      some (setMeshTransform b1 m0) := by
    rw [updateColliderBoxes_lookup_not_mem pre2 s1 part hpre2]
    exact hm1
  obtain ⟨m0b, hm0b, hcase⟩ := stepBox_lookup_self (updateColliderBoxes s1 pre2) part b2
  have hm0b_eq : m0b = setMeshTransform b1 m0 := by
    rcases hcase with hc | hc
    · rw [hm1pre2] at hc
      exact (Option.some_injective _ hc).symm
    · rw [hc.1] at hm1pre2
      exact absurd hm1pre2 (by simp)
  have hm2 : assocLookup part
      (updateColliderBoxes s1 (pre2 ++ (part, b2) :: post2)).colliderBoxes =
      some (setMeshTransform b2 m0b) := by
    rw [hfold2, updateColliderBoxes_lookup_not_mem post2 _ part hpost2, hm0b]
  refine ⟨setMeshTransform b1 m0, setMeshTransform b2 m0b, hm1, hm2, ?_, ?_, rfl, rfl⟩
  · rw [hm0b_eq, setMeshTransform_id]
  · have hWF1 : WFBoxScene s1 := by
      rw [hs1]
      exact WF_updateColliderBoxes _ s hWF
    have hidlt : (setMeshTransform b1 m0).id < s1.nextMeshId :=
      hWF1 _ (assocLookup_mem part _ _ hm1)
    obtain ⟨t, ht, hb, _⟩ := updateColliderBoxes_children (pre2 ++ (part, b2) :: post2) s1
    rw [ht, List.count_append]
    have hnot : (setMeshTransform b1 m0).id ∉ t := by
      intro hmem
      exact absurd (hb _ hmem) (by omega)
    rw [List.count_eq_zero.mpr hnot]
    omega

/-- Witness for C5: the empty scene, then two single-entry head-box calls. -/
theorem proxy_identity_stable_witness :
    WFBoxScene initBoxScene ∧
    ∃ m1 m2,
      assocLookup "head"
        (updateColliderBoxes initBoxScene
          ([] ++ ("head", ⟨0, 1, 0, 1, "yellow"⟩) :: [])).colliderBoxes = some m1 ∧
      assocLookup "head"
        (updateColliderBoxes
          (updateColliderBoxes initBoxScene ([] ++ ("head", ⟨0, 1, 0, 1, "yellow"⟩) :: []))
          ([] ++ ("head", ⟨-1, 0, -1, 0, "yellow"⟩) :: [])).colliderBoxes = some m2 ∧
      m2.id = m1.id ∧
      (updateColliderBoxes
          (updateColliderBoxes initBoxScene ([] ++ ("head", ⟨0, 1, 0, 1, "yellow"⟩) :: []))
          ([] ++ ("head", ⟨-1, 0, -1, 0, "yellow"⟩) :: [])).sceneChildren.count m1.id =
        (updateColliderBoxes initBoxScene
          ([] ++ ("head", ⟨0, 1, 0, 1, "yellow"⟩) :: [])).sceneChildren.count m1.id ∧
      m2.position = ⟨((0 : ℚ) + -1) / 2 * 3, ((0 : ℚ) + -1) / 2 * 3, 0⟩ ∧
      m2.scale = ⟨((0 : ℚ) - -1) * 3, ((0 : ℚ) - -1) * 3, 1 / 5⟩ :=
  ⟨fun e he => absurd he (List.not_mem_nil e),
   proxy_identity_stable initBoxScene [] [] [] [] "head" ⟨0, 1, 0, 1, "yellow"⟩
     ⟨-1, 0, -1, 0, "yellow"⟩ (fun e he => absurd he (List.not_mem_nil e))
     (by simp) (by simp) (by simp)⟩
